import Mathlib

/-
Verification of the type-object core of a Rust/Python binding layer
(src/type_object.rs): the type-flags bitset, the PyTypeInfo and
PyObjectLayout traits, and the two one-shot lazy cells (LazyHeapType,
LazyStaticType) that hold a Python type record.

Shallow embedding conventions:
* machine addresses (raw pointers such as NonNull<ffi::PyTypeObject> and
  the ob_type field of a PyObject) are modelled as Nat;
* the two lazy cells are modelled as small state machines: each calling
  thread runs the body of get_or_init split at its atomic / blocking
  points (the compare_and_swap on the initialized flag, the
  GIL-protected construction and store, the final read of the payload),
  and an arbitrary interleaving is a list of thread indices;
* Rust panics (the unwrap of a None payload, the panic! after a failed
  class construction) are modelled as a terminal result for the
  panicking call: it stops and returns no address;
* components of the crate that live outside this file's source
  (ffi::PyObject_TypeCheck, Py::from_borrowed_ptr, the class
  construction routine called by LazyStaticType) are modelled from the
  spec, as marked on their doc comments.
-/

namespace TypeObject

/-- Raw addresses in the foreign runtime's heap (pointer values). -/
abbrev Addr := Nat

/-! ## Type flags (pub mod type_flags) -/

namespace type_flags

/-- Type object supports python GC (source: pub const GC: usize = 1). -/
def GC : Nat := 1

/-- Type object supports python weak references (source: 1 << 1). -/
def WEAKREF : Nat := 1 <<< 1

/-- Type object can be used as the base type of another type (1 << 2). -/
def BASETYPE : Nat := 1 <<< 2

/-- The instances of this type have a dictionary containing instance
variables (1 << 3). -/
def DICT : Nat := 1 <<< 3

/-- The class declared by pyclass(extends=..) (1 << 4). -/
def EXTENDED : Nat := 1 <<< 4

end type_flags

/-- Membership of a single flag bit in a combined flag word: the flag's
bit is set in the word. This is the bit-by-bit decomposition used by
consumers of the flag word. -/
def hasFlag (word f : Nat) : Bool := word &&& f != 0

/-- Bitwise OR of an arbitrary subset of the five named flags, the
subset being given by five Booleans. -/
def orFlags (gc w b d e : Bool) : Nat :=
  (if gc then type_flags.GC else 0) |||
  (if w then type_flags.WEAKREF else 0) |||
  (if b then type_flags.BASETYPE else 0) |||
  (if d then type_flags.DICT else 0) |||
  (if e then type_flags.EXTENDED else 0)

/-! ## Object handles and the foreign runtime -/

/-- A generic runtime object handle (ffi::PyObject seen through &PyAny):
the only part this subsystem reads is its runtime type pointer
(the ob_type field). -/
structure PyAny where
  ob_type : Addr

/-- Modelled from the spec: the foreign runtime's class hierarchy,
which is outside this file. It is abstracted as the relation telling
whether the type record at one address is a (proper) descendant of the
type record at another address. -/
structure Runtime where
  isDescendant : Addr → Addr → Bool

/-- Modelled from the spec: ffi::PyObject_TypeCheck, the foreign
runtime's own type-check primitive (it lives in the crate's ffi module,
not in this file). Per the spec it answers true exactly when the
object's runtime type is the given type or a descendant of it. -/
def PyObject_TypeCheck (rt : Runtime) (object : PyAny) (t : Addr) : Bool :=
  object.ob_type == t || rt.isDescendant object.ob_type t

/-! ## The PyTypeInfo trait -/

/-- One implementation of the PyTypeInfo trait: the associated constants
and the type_object accessor. The associated types (BaseType,
ConcreteLayout, Initializer) are type-level and carry no data used by
the operations modelled here. Per the trait's invariant, type_object is
a single address fixed for the process, so it is a plain field. -/
structure PyTypeInfo where
  NAME : String
  MODULE : Option String
  DESCRIPTION : String := "\x00"
  FLAGS : Nat := 0
  type_object : Addr

/-- Source: PyTypeInfo::is_instance — delegates to
ffi::PyObject_TypeCheck applied to the object pointer and the address
returned by Self::type_object(), and tests the result against 0. -/
def PyTypeInfo.is_instance (rt : Runtime) (T : PyTypeInfo) (object : PyAny) : Bool :=
  PyObject_TypeCheck rt object T.type_object

/-- Source: PyTypeInfo::is_exact_instance — compares the object's
ob_type pointer with the address returned by Self::type_object() for
bit-identity. -/
def PyTypeInfo.is_exact_instance (T : PyTypeInfo) (object : PyAny) : Bool :=
  object.ob_type == T.type_object

/-! ## The blanket PyTypeObject impl -/

/-- Reference-counting state of the foreign runtime's heap, plus a
count of allocations performed, used to state that wrapping a borrowed
pointer allocates nothing. -/
structure PyHeap where
  refcnt : Addr → Nat
  allocCount : Nat

/-- An owned, runtime-refcounted reference (Py<PyType>): it records the
address of the object it owns a reference to. -/
structure PyRef where
  ptr : Addr

/-- Modelled from the spec: Py::from_borrowed_ptr, which lives in the
crate's instance module, not in this file. It wraps the raw address
into an owned reference by bumping the reference count of the existing
object at that address; it never allocates a new object. -/
def Py.from_borrowed_ptr (addr : Addr) (h : PyHeap) : PyRef × PyHeap :=
  (⟨addr⟩,
   { refcnt := Function.update h.refcnt addr (h.refcnt addr + 1),
     allocCount := h.allocCount })

/-- Source: the blanket impl — unsafe impl of PyTypeObject for every
T : PyTypeInfo; its type_object() wraps the address returned by
PyTypeInfo::type_object() via Py::from_borrowed_ptr. -/
def PyTypeObject.type_object (T : PyTypeInfo) (h : PyHeap) : PyRef × PyHeap :=
  Py.from_borrowed_ptr T.type_object h

/-! ## The PyObjectLayout trait -/

/-- The PyObjectLayout trait: the provided (default) method bodies, as
in the source. O is the concrete representation type, B the base
class's concrete layout, V the value stored by py_init, C the Python
context passed to py_drop. The unchecked pointer reinterpretation
methods (internal_ref_cast, internal_mut_cast) are raw-pointer casts
with no observable pure content and are not modelled. The lifecycle
hooks are modelled as state transformers on the representation. -/
structure PyObjectLayout (O B V C : Type) where
  IS_NATIVE_TYPE : Bool := true
  get_super_or : O → Option B := fun _ => none
  py_init : O → V → O := fun s _ => s
  py_drop : O → C → O := fun s _ => s

/-- A layout implementation that overrides none of the provided
methods: every method keeps its default body from the trait. -/
def defaultLayout (O B V C : Type) : PyObjectLayout O B V C := {}

/-! ## Memory orderings -/

/-- Memory orderings of std::sync::atomic::Ordering, as data, so that
the ordering the source passes to compare_and_swap can be stated. -/
inductive AtomicOrdering
  | relaxed
  | acquire
  | release
  | acqRel
  | seqCst
deriving DecidableEq

/-! ## LazyHeapType

Source state: value: UnsafeCell<Option<NonNull<ffi::PyTypeObject>>> and
an AtomicBool initialized flag. get_or_init runs, per calling thread:
(1) compare_and_swap(false, true, Ordering::Acquire) on the flag; the
thread that saw false (2) acquires the GIL, runs the constructor and
stores Some(addr) into the slot; then every thread (3) reads the slot
and unwraps it. Each numbered step is one atomic step of the model;
threads interleave arbitrarily between steps; the unwrap of None is a
panic, modelled as the terminal result panicked. -/

namespace LazyHeapModel

/-- The ordering the source passes to compare_and_swap in
LazyHeapType::get_or_init (Ordering::Acquire). -/
def casOrdering : TypeObject.AtomicOrdering := .acquire

/-- Position of one calling thread inside the body of get_or_init. -/
inductive PC
  | beforeCas
  | construct
  | readRet
  | done
deriving DecidableEq

/-- Outcome of one call: the address it returned, or a panic (the
unwrap of a still-empty payload slot). -/
inductive CallResult
  | returned (a : TypeObject.Addr)
  | panicked
deriving DecidableEq

/-- The shared cell: payload slot, initialized flag, plus an
instrumentation counter of constructor executions (the counter the
spec's exactly-once test increments inside the closure; it does not
influence any transition). -/
structure Cell where
  value : Option TypeObject.Addr
  initialized : Bool
  constructorRuns : Nat

/-- LazyHeapType::new — empty slot, flag false. -/
def Cell.new : Cell :=
  { value := none, initialized := false, constructorRuns := 0 }

/-- A system of n threads all calling get_or_init on one cell: the
cell, each thread's position, and each thread's recorded outcome. -/
structure Run (n : Nat) where
  cell : Cell
  pc : Fin n → PC
  result : Fin n → Option CallResult

/-- Initial system state: fresh cell, every thread about to CAS. -/
def initRun (n : Nat) : Run n :=
  { cell := Cell.new, pc := fun _ => .beforeCas, result := fun _ => none }

/-- One atomic step of thread i, given its current position. c i is
the address thread i's constructor closure would produce. -/
def stepAt {n : Nat} (c : Fin n → TypeObject.Addr) (s : Run n) (i : Fin n) :
    PC → Run n
  | .beforeCas =>
    if s.cell.initialized then
      { s with pc := Function.update s.pc i .readRet }
    else
      { s with cell := { s.cell with initialized := true },
               pc := Function.update s.pc i .construct }
  | .construct =>
    { s with cell := { s.cell with
                         value := some (c i),
                         constructorRuns := s.cell.constructorRuns + 1 },
             pc := Function.update s.pc i .readRet }
  | .readRet =>
    match s.cell.value with
    | some a =>
      { s with pc := Function.update s.pc i .done,
               result := Function.update s.result i (some (.returned a)) }
    | none =>
      { s with pc := Function.update s.pc i .done,
               result := Function.update s.result i (some .panicked) }
  | .done => s

/-- One atomic step of thread i. -/
def stepThread {n : Nat} (c : Fin n → TypeObject.Addr) (s : Run n) (i : Fin n) :
    Run n :=
  stepAt c s i (s.pc i)

/-- Execution of a schedule: the listed threads step in order. -/
def run {n : Nat} (c : Fin n → TypeObject.Addr) (ss : List (Fin n)) (s : Run n) :
    Run n :=
  ss.foldl (stepThread c) s

/-- Mutual-exclusion invariant of a run: while the flag is false nothing
has happened yet, and once it is true the constructor has either run
exactly once or is about to be run by exactly one winning thread. -/
def Inv {n : Nat} (s : Run n) : Prop :=
  (s.cell.initialized = false →
    (∀ i, s.pc i = .beforeCas) ∧
      s.cell.constructorRuns = 0 ∧ s.cell.value = none)
  ∧ (s.cell.initialized = true →
      (s.cell.constructorRuns = 1 ∧ ∀ i, s.pc i ≠ .construct)
    ∨ (s.cell.constructorRuns = 0 ∧
        ∃ i, s.pc i = .construct ∧ ∀ j, s.pc j = .construct → j = i))

theorem inv_initRun (n : Nat) : Inv (initRun n) := by
  constructor
  · intro _
    exact ⟨fun _ => rfl, rfl, rfl⟩
  · intro h
    cases h

theorem inv_step {n : Nat} (c : Fin n → TypeObject.Addr) (s : Run n)
    (i : Fin n) (h : Inv s) : Inv (stepThread c s i) := by
  obtain ⟨h0, h1⟩ := h
  unfold stepThread
  cases hpc : s.pc i with
  | beforeCas =>
    cases hini : s.cell.initialized with
    | false =>
      obtain ⟨hall, hruns, _⟩ := h0 hini
      simp only [stepAt, hini, Bool.false_eq_true, if_false]
      constructor
      · intro habs
        dsimp only at habs
        exact absurd habs (by decide)
      · intro _
        refine Or.inr ⟨hruns, i, ?_, ?_⟩
        · dsimp only
          rw [Function.update_same]
        · intro j hj
          dsimp only at hj
          by_cases hji : j = i
          · exact hji
          · rw [Function.update_noteq hji, hall j] at hj
            exact absurd hj (by decide)
    | true =>
      simp only [stepAt, hini, if_true]
      constructor
      · intro habs
        dsimp only at habs
        rw [hini] at habs
        exact absurd habs (by decide)
      · intro _
        rcases h1 hini with ⟨hr, hnc⟩ | ⟨hr, k, hk, huniq⟩
        · refine Or.inl ⟨hr, fun j => ?_⟩
          dsimp only
          by_cases hji : j = i
          · subst hji
            rw [Function.update_same]
            decide
          · rw [Function.update_noteq hji]
            exact hnc j
        · have hki : k ≠ i := by
            intro hh
            rw [hh, hpc] at hk
            exact absurd hk (by decide)
          refine Or.inr ⟨hr, k, ?_, ?_⟩
          · dsimp only
            rw [Function.update_noteq hki]
            exact hk
          · intro j hj
            dsimp only at hj
            by_cases hji : j = i
            · subst hji
              rw [Function.update_same] at hj
              exact absurd hj (by decide)
            · rw [Function.update_noteq hji] at hj
              exact huniq j hj
  | construct =>
    have hini : s.cell.initialized = true := by
      cases hini : s.cell.initialized with
      | false =>
        have := (h0 hini).1 i
        rw [hpc] at this
        exact absurd this (by decide)
      | true => rfl
    rcases h1 hini with ⟨_, hnc⟩ | ⟨hr, k, hk, huniq⟩
    · exact absurd hpc (hnc i)
    · have hik : i = k := huniq i hpc
      subst hik
      simp only [stepAt]
      constructor
      · intro habs
        dsimp only at habs
        rw [hini] at habs
        exact absurd habs (by decide)
      · intro _
        refine Or.inl ⟨?_, fun j => ?_⟩
        · dsimp only
          rw [hr]
        · dsimp only
          by_cases hji : j = i
          · subst hji
            rw [Function.update_same]
            decide
          · rw [Function.update_noteq hji]
            intro hj
            exact hji (huniq j hj)
  | readRet =>
    have hini : s.cell.initialized = true := by
      cases hini : s.cell.initialized with
      | false =>
        have := (h0 hini).1 i
        rw [hpc] at this
        exact absurd this (by decide)
      | true => rfl
    have hstep : ∀ (res : CallResult),
        Inv { s with pc := Function.update s.pc i .done,
                     result := Function.update s.result i (some res) } := by
      intro res
      constructor
      · intro habs
        dsimp only at habs
        rw [hini] at habs
        exact absurd habs (by decide)
      · intro _
        rcases h1 hini with ⟨hr, hnc⟩ | ⟨hr, k, hk, huniq⟩
        · refine Or.inl ⟨hr, fun j => ?_⟩
          dsimp only
          by_cases hji : j = i
          · subst hji
            rw [Function.update_same]
            decide
          · rw [Function.update_noteq hji]
            exact hnc j
        · have hki : k ≠ i := by
            intro hh
            rw [hh, hpc] at hk
            exact absurd hk (by decide)
          refine Or.inr ⟨hr, k, ?_, ?_⟩
          · dsimp only
            rw [Function.update_noteq hki]
            exact hk
          · intro j hj
            dsimp only at hj
            by_cases hji : j = i
            · subst hji
              rw [Function.update_same] at hj
              exact absurd hj (by decide)
            · rw [Function.update_noteq hji] at hj
              exact huniq j hj
    cases hv : s.cell.value with
    | some a =>
      simp only [stepAt, hv]
      exact hstep (.returned a)
    | none =>
      simp only [stepAt, hv]
      exact hstep .panicked
  | done =>
    simp only [stepAt]
    exact ⟨h0, h1⟩

theorem inv_run {n : Nat} (c : Fin n → TypeObject.Addr) (ss : List (Fin n))
    (s : Run n) (h : Inv s) : Inv (run c ss s) := by
  induction ss generalizing s with
  | nil => exact h
  | cons j tl ih => exact ih _ (inv_step c s j h)

/-- Exactly-once for LazyHeapType: in every interleaving of n callers
after which every caller has finished, the constructor closure has run
exactly once. -/
theorem heap_exactly_once {n : Nat} (c : Fin n → TypeObject.Addr)
    (ss : List (Fin n)) (hn : 0 < n)
    (hdone : ∀ i, (run c ss (initRun n)).pc i = .done) :
    (run c ss (initRun n)).cell.constructorRuns = 1 := by
  have hinv := inv_run c ss (initRun n) (inv_initRun n)
  cases hini : (run c ss (initRun n)).cell.initialized with
  | false =>
    have := (hinv.1 hini).1 ⟨0, hn⟩
    rw [hdone ⟨0, hn⟩] at this
    exact absurd this (by decide)
  | true =>
    rcases hinv.2 hini with ⟨hr, _⟩ | ⟨_, k, hk, _⟩
    · exact hr
    · rw [hdone k] at hk
      exact absurd hk (by decide)

end LazyHeapModel

/-! ## LazyStaticType

Source state: value: UnsafeCell<ffi::PyTypeObject> starting as
PyTypeObject_INIT, and an AtomicBool initialized flag. get_or_init
runs, per calling thread: (1) the same compare_and_swap on the flag;
the thread that saw false (2) acquires the GIL and synthesizes the type
record in place from the descriptor T (a call into the crate's pyclass
module, outside this file, modelled by its Except outcome r); on Err e
it prints e through the runtime's error channel and panics; then every
non-panicked thread (3) returns a reference to the in-place record —
always the address of the cell's own value field. The model records,
as instrumentation on the returned reference, whether the record had
already been synthesized (false means the reference still sees
PyTypeObject_INIT). -/

namespace LazyStaticModel

/-- The ordering the source passes to compare_and_swap in
LazyStaticType::get_or_init (Ordering::Acquire). -/
def casOrdering : TypeObject.AtomicOrdering := .acquire

/-- Position of one calling thread inside the body of get_or_init. -/
inductive PC
  | beforeCas
  | construct
  | readRet
  | done
deriving DecidableEq

/-- Outcome of one call: a reference to the cell's record (written
records, as instrumentation, whether the type record had been
synthesized when the reference was taken), or the fatal panic after a
failed synthesis. -/
inductive CallResult
  | returnedRef (written : Bool)
  | fatal
deriving DecidableEq

/-- The shared cell: whether the in-place record has been synthesized
(false is the PyTypeObject_INIT state), the initialized flag, the
number of diagnostics printed through the error channel, and an
instrumentation counter of synthesis executions. -/
structure Cell where
  valueWritten : Bool
  initialized : Bool
  printed : Nat
  initRuns : Nat

/-- LazyStaticType::new — record is PyTypeObject_INIT, flag false. -/
def Cell.new : Cell :=
  { valueWritten := false, initialized := false, printed := 0, initRuns := 0 }

/-- A system of n threads all calling get_or_init on one cell. -/
structure Run (n : Nat) where
  cell : Cell
  pc : Fin n → PC
  result : Fin n → Option CallResult

/-- Initial system state: fresh cell, every thread about to CAS. -/
def initRun (n : Nat) : Run n :=
  { cell := Cell.new, pc := fun _ => .beforeCas, result := fun _ => none }

/-- One atomic step of thread i, given its current position. r is the
outcome of the in-place synthesis of the type record for T. -/
def stepAt {n : Nat} (r : Except Unit Unit) (s : Run n) (i : Fin n) :
    PC → Run n
  | .beforeCas =>
    if s.cell.initialized then
      { s with pc := Function.update s.pc i .readRet }
    else
      { s with cell := { s.cell with initialized := true },
               pc := Function.update s.pc i .construct }
  | .construct =>
    match r with
    | .ok _ =>
      { s with cell := { s.cell with
                           valueWritten := true,
                           initRuns := s.cell.initRuns + 1 },
               pc := Function.update s.pc i .readRet }
    | .error _ =>
      { s with cell := { s.cell with
                           printed := s.cell.printed + 1,
                           initRuns := s.cell.initRuns + 1 },
               pc := Function.update s.pc i .done,
               result := Function.update s.result i (some .fatal) }
  | .readRet =>
    { s with pc := Function.update s.pc i .done,
             result := Function.update s.result i
                         (some (.returnedRef s.cell.valueWritten)) }
  | .done => s

/-- One atomic step of thread i. -/
def stepThread {n : Nat} (r : Except Unit Unit) (s : Run n) (i : Fin n) :
    Run n :=
  stepAt r s i (s.pc i)

/-- Execution of a schedule: the listed threads step in order. -/
def run {n : Nat} (r : Except Unit Unit) (ss : List (Fin n)) (s : Run n) :
    Run n :=
  ss.foldl (stepThread r) s

/-- Mutual-exclusion invariant, as for the heap cell: while the flag is
false nothing has happened yet, and once it is true the synthesis has
either run exactly once or is about to be run by exactly one winning
thread. -/
def SInv {n : Nat} (s : Run n) : Prop :=
  (s.cell.initialized = false →
    (∀ i, s.pc i = .beforeCas) ∧
      s.cell.initRuns = 0 ∧ s.cell.valueWritten = false)
  ∧ (s.cell.initialized = true →
      (s.cell.initRuns = 1 ∧ ∀ i, s.pc i ≠ .construct)
    ∨ (s.cell.initRuns = 0 ∧
        ∃ i, s.pc i = .construct ∧ ∀ j, s.pc j = .construct → j = i))

theorem sinv_initRun (n : Nat) : SInv (initRun n) := by
  constructor
  · intro _
    exact ⟨fun _ => rfl, rfl, rfl⟩
  · intro h
    cases h

theorem sinv_step {n : Nat} (r : Except Unit Unit) (s : Run n)
    (i : Fin n) (h : SInv s) : SInv (stepThread r s i) := by
  obtain ⟨h0, h1⟩ := h
  unfold stepThread
  cases hpc : s.pc i with
  | beforeCas =>
    cases hini : s.cell.initialized with
    | false =>
      obtain ⟨hall, hruns, _⟩ := h0 hini
      simp only [stepAt, hini, Bool.false_eq_true, if_false]
      constructor
      · intro habs
        dsimp only at habs
        exact absurd habs (by decide)
      · intro _
        refine Or.inr ⟨hruns, i, ?_, ?_⟩
        · dsimp only
          rw [Function.update_same]
        · intro j hj
          dsimp only at hj
          by_cases hji : j = i
          · exact hji
          · rw [Function.update_noteq hji, hall j] at hj
            exact absurd hj (by decide)
    | true =>
      simp only [stepAt, hini, if_true]
      constructor
      · intro habs
        dsimp only at habs
        rw [hini] at habs
        exact absurd habs (by decide)
      · intro _
        rcases h1 hini with ⟨hr, hnc⟩ | ⟨hr, k, hk, huniq⟩
        · refine Or.inl ⟨hr, fun j => ?_⟩
          dsimp only
          by_cases hji : j = i
          · subst hji
            rw [Function.update_same]
            decide
          · rw [Function.update_noteq hji]
            exact hnc j
        · have hki : k ≠ i := by
            intro hh
            rw [hh, hpc] at hk
            exact absurd hk (by decide)
          refine Or.inr ⟨hr, k, ?_, ?_⟩
          · dsimp only
            rw [Function.update_noteq hki]
            exact hk
          · intro j hj
            dsimp only at hj
            by_cases hji : j = i
            · subst hji
              rw [Function.update_same] at hj
              exact absurd hj (by decide)
            · rw [Function.update_noteq hji] at hj
              exact huniq j hj
  | construct =>
    have hini : s.cell.initialized = true := by
      cases hini : s.cell.initialized with
      | false =>
        have := (h0 hini).1 i
        rw [hpc] at this
        exact absurd this (by decide)
      | true => rfl
    rcases h1 hini with ⟨_, hnc⟩ | ⟨hr, k, hk, huniq⟩
    · exact absurd hpc (hnc i)
    · have hik : i = k := huniq i hpc
      subst hik
      have hrest : ∀ (s' : Run n), s'.cell.initialized = s.cell.initialized →
          s'.cell.initRuns = s.cell.initRuns + 1 →
          (∀ j, s'.pc j = Function.update s.pc i PC.readRet j ∨
                s'.pc j = Function.update s.pc i PC.done j) →
          SInv s' := by
        intro s' he hn hpcs
        constructor
        · intro habs
          rw [he, hini] at habs
          exact absurd habs (by decide)
        · intro _
          refine Or.inl ⟨by rw [hn, hr], fun j => ?_⟩
          rcases hpcs j with hj | hj <;> rw [hj] <;>
            [skip; skip] <;>
            · by_cases hji : j = i
              · subst hji
                rw [Function.update_same]
                decide
              · rw [Function.update_noteq hji]
                intro hjc
                exact hji (huniq j hjc)
      cases r with
      | ok u =>
        simp only [stepAt]
        refine hrest _ rfl rfl fun j => Or.inl rfl
      | error e =>
        simp only [stepAt]
        refine hrest _ rfl rfl fun j => Or.inr rfl
  | readRet =>
    have hini : s.cell.initialized = true := by
      cases hini : s.cell.initialized with
      | false =>
        have := (h0 hini).1 i
        rw [hpc] at this
        exact absurd this (by decide)
      | true => rfl
    simp only [stepAt]
    constructor
    · intro habs
      dsimp only at habs
      rw [hini] at habs
      exact absurd habs (by decide)
    · intro _
      rcases h1 hini with ⟨hr, hnc⟩ | ⟨hr, k, hk, huniq⟩
      · refine Or.inl ⟨hr, fun j => ?_⟩
        dsimp only
        by_cases hji : j = i
        · subst hji
          rw [Function.update_same]
          decide
        · rw [Function.update_noteq hji]
          exact hnc j
      · have hki : k ≠ i := by
          intro hh
          rw [hh, hpc] at hk
          exact absurd hk (by decide)
        refine Or.inr ⟨hr, k, ?_, ?_⟩
        · dsimp only
          rw [Function.update_noteq hki]
          exact hk
        · intro j hj
          dsimp only at hj
          by_cases hji : j = i
          · subst hji
            rw [Function.update_same] at hj
            exact absurd hj (by decide)
          · rw [Function.update_noteq hji] at hj
            exact huniq j hj
  | done =>
    simp only [stepAt]
    exact ⟨h0, h1⟩

theorem sinv_run {n : Nat} (r : Except Unit Unit) (ss : List (Fin n))
    (s : Run n) (h : SInv s) : SInv (run r ss s) := by
  induction ss generalizing s with
  | nil => exact h
  | cons j tl ih => exact ih _ (sinv_step r s j h)

/-- Exactly-once for LazyStaticType: in every interleaving of n callers
after which every caller has finished, the in-place synthesis of the
type record has run exactly once. -/
theorem static_exactly_once {n : Nat} (r : Except Unit Unit)
    (ss : List (Fin n)) (hn : 0 < n)
    (hdone : ∀ i, (run r ss (initRun n)).pc i = .done) :
    (run r ss (initRun n)).cell.initRuns = 1 := by
  have hinv := sinv_run r ss (initRun n) (sinv_initRun n)
  cases hini : (run r ss (initRun n)).cell.initialized with
  | false =>
    have := (hinv.1 hini).1 ⟨0, hn⟩
    rw [hdone ⟨0, hn⟩] at this
    exact absurd this (by decide)
  | true =>
    rcases hinv.2 hini with ⟨hr, _⟩ | ⟨_, k, hk, _⟩
    · exact hr
    · rw [hdone k] at hk
      exact absurd hk (by decide)

end LazyStaticModel

end TypeObject

open TypeObject

/-- C1: for either lazy cell (LazyHeapType or LazyStaticType), the
constructor/synthesis closure passed to get_or_init executes exactly
once over the whole process, regardless of how many callers invoke
get_or_init and in what interleaving: in every schedule after which all
n callers have finished, the closure-execution counter is exactly 1
(the CAS admits a single winner; every later caller finds the flag
already true and skips the closure). -/
theorem claim1_constructor_executes_exactly_once :
    (∀ (n : Nat) (c : Fin n → Addr) (ss : List (Fin n)),
      0 < n →
      (∀ i, (LazyHeapModel.run c ss (LazyHeapModel.initRun n)).pc i = .done) →
      (LazyHeapModel.run c ss (LazyHeapModel.initRun n)).cell.constructorRuns = 1)
  ∧ (∀ (n : Nat) (r : Except Unit Unit) (ss : List (Fin n)),
      0 < n →
      (∀ i, (LazyStaticModel.run r ss (LazyStaticModel.initRun n)).pc i = .done) →
      (LazyStaticModel.run r ss (LazyStaticModel.initRun n)).cell.initRuns = 1) :=
  ⟨fun _ c ss hn hdone => LazyHeapModel.heap_exactly_once c ss hn hdone,
   fun _ r ss hn hdone => LazyStaticModel.static_exactly_once r ss hn hdone⟩

/-- Witness for C1: two callers, both cells, a full interleaving; the
counter ends at exactly 1. -/
theorem claim1_witness :
    (∀ i, (LazyHeapModel.run (fun _ => 100) ([0, 0, 0, 1, 1] : List (Fin 2))
             (LazyHeapModel.initRun 2)).pc i = .done)
  ∧ (LazyHeapModel.run (fun _ => 100) ([0, 0, 0, 1, 1] : List (Fin 2))
       (LazyHeapModel.initRun 2)).cell.constructorRuns = 1
  ∧ (∀ i, (LazyStaticModel.run (Except.ok ()) ([0, 0, 0, 1, 1] : List (Fin 2))
             (LazyStaticModel.initRun 2)).pc i = .done)
  ∧ (LazyStaticModel.run (Except.ok ()) ([0, 0, 0, 1, 1] : List (Fin 2))
       (LazyStaticModel.initRun 2)).cell.initRuns = 1 :=
  ⟨by decide,
   claim1_constructor_executes_exactly_once.1 2 (fun _ => 100) _ (by decide) (by decide),
   by decide,
   claim1_constructor_executes_exactly_once.2 2 (Except.ok ()) _ (by decide) (by decide)⟩

/-- C2 fails on the code: under the interleaving in which the losing
caller reaches the payload read before the winner has stored, the
winner returns the constructed address but the loser's unwrap of the
still-empty slot panics, so not every concurrent first-use call of
LazyHeapType::get_or_init returns the first call's address. -/
theorem claim2_concurrent_heap_caller_panics :
    (LazyHeapModel.run (fun _ => 100) ([0, 1, 1, 0, 0] : List (Fin 2))
       (LazyHeapModel.initRun 2)).result 0 = some (.returned 100)
  ∧ (LazyHeapModel.run (fun _ => 100) ([0, 1, 1, 0, 0] : List (Fin 2))
       (LazyHeapModel.initRun 2)).result 1 = some .panicked := by
  decide

/-- C3 fails on the code: both cells gate initialization with a
compare_and_swap using Ordering::Acquire, not acquire-and-release, and
a thread that loses the CAS does not re-check or block: it proceeds
straight to the payload — for LazyHeapType it can unwrap the still-empty
slot and panic, and for LazyStaticType it can return a reference to the
record while the record is still the unsynthesized PyTypeObject_INIT. -/
theorem claim3_acquire_only_cas_and_losers_do_not_wait :
    LazyHeapModel.casOrdering = .acquire
  ∧ LazyHeapModel.casOrdering ≠ .acqRel
  ∧ LazyStaticModel.casOrdering = .acquire
  ∧ LazyStaticModel.casOrdering ≠ .acqRel
  ∧ (LazyHeapModel.run (fun _ => 100) ([0, 1, 1] : List (Fin 2))
       (LazyHeapModel.initRun 2)).result 1 = some .panicked
  ∧ (LazyStaticModel.run (Except.ok ()) ([0, 1, 1] : List (Fin 2))
       (LazyStaticModel.initRun 2)).result 1 = some (.returnedRef false) := by
  decide

/-- C4, amended: if synthesis of the static type record fails inside
LazyStaticType::get_or_init, the winning thread prints the diagnostic
through the runtime's error channel and the panicking call stops
fatally — it returns no record reference, takes no further step and
never retries. The panic does not stop the process: it leaves the cell
exactly as the failure found it, the record unsynthesized and the
initialized flag as already set by the CAS, so the cell is not rolled
back (see the counterexample for the degraded state a later caller can
then reach). -/
theorem claim4_static_synthesis_failure_is_fatal :
    ∀ (n : Nat) (s : LazyStaticModel.Run n) (i : Fin n),
      s.pc i = .construct →
      (LazyStaticModel.stepThread (Except.error ()) s i).cell.printed
          = s.cell.printed + 1
    ∧ (LazyStaticModel.stepThread (Except.error ()) s i).result i = some .fatal
    ∧ (LazyStaticModel.stepThread (Except.error ()) s i).pc i = .done
    ∧ (LazyStaticModel.stepThread (Except.error ()) s i).cell.valueWritten
        = s.cell.valueWritten
    ∧ (LazyStaticModel.stepThread (Except.error ()) s i).cell.initialized
        = s.cell.initialized
    ∧ LazyStaticModel.stepThread (Except.error ())
        (LazyStaticModel.stepThread (Except.error ()) s i) i
        = LazyStaticModel.stepThread (Except.error ()) s i := by
  intro n s i hpc
  unfold LazyStaticModel.stepThread
  rw [hpc]
  simp [LazyStaticModel.stepAt, Function.update_same]

/-- C4 counterexample to the original claim: with a failing synthesis
and two callers, the schedule in which the winner fails first and the
second caller calls afterwards ends with the process still running: the
second call finds the initialized flag already true, skips the
synthesis, and returns a reference to the still-unsynthesized
PyTypeObject_INIT record — a value IS returned and a degraded state IS
reachable for that type, so the process does not stop unrecoverably. -/
theorem claim4_counterexample :
    (LazyStaticModel.run (Except.error ()) ([0, 0, 1, 1] : List (Fin 2))
       (LazyStaticModel.initRun 2)).result 0 = some .fatal
  ∧ (LazyStaticModel.run (Except.error ()) ([0, 0, 1, 1] : List (Fin 2))
       (LazyStaticModel.initRun 2)).result 1 = some (.returnedRef false)
  ∧ (LazyStaticModel.run (Except.error ()) ([0, 0, 1, 1] : List (Fin 2))
       (LazyStaticModel.initRun 2)).cell.valueWritten = false
  ∧ (∀ i, (LazyStaticModel.run (Except.error ()) ([0, 0, 1, 1] : List (Fin 2))
       (LazyStaticModel.initRun 2)).pc i = .done) := by
  decide

/-- Witness for C4: one caller that has just won the CAS; the failing
synthesis prints once and the call ends fatally with no record. -/
theorem claim4_witness :
    (LazyStaticModel.run (Except.error ()) ([0] : List (Fin 1))
       (LazyStaticModel.initRun 1)).pc 0 = .construct
  ∧ (LazyStaticModel.stepThread (Except.error ())
       (LazyStaticModel.run (Except.error ()) ([0] : List (Fin 1))
          (LazyStaticModel.initRun 1)) 0).result 0 = some .fatal :=
  ⟨by decide, (claim4_static_synthesis_failure_is_fatal 1 _ 0 (by decide)).2.1⟩

/-- C5: is_exact_instance(handle) is true iff the handle's runtime type
pointer equals the address from type_object(), with no subtype
allowance; whenever it is true, is_instance is also true; and not
conversely (an instance through a proper descendant type is not an
exact instance). -/
theorem claim5_exact_instance_iff_identical_type_pointer :
    (∀ (rt : Runtime) (T : PyTypeInfo) (object : PyAny),
      (T.is_exact_instance object = true ↔ object.ob_type = T.type_object)
      ∧ (T.is_exact_instance object = true → T.is_instance rt object = true))
  ∧ (∃ (rt : Runtime) (T : PyTypeInfo) (object : PyAny),
      T.is_instance rt object = true ∧ T.is_exact_instance object = false) := by
  constructor
  · intro rt T object
    constructor
    · simp [PyTypeInfo.is_exact_instance]
    · intro h
      simp only [PyTypeInfo.is_exact_instance, beq_iff_eq] at h
      simp [PyTypeInfo.is_instance, PyObject_TypeCheck, h]
  · exact ⟨⟨fun a b => a == 5 && b == 7⟩, ⟨"T", none, "\x00", 0, 7⟩, ⟨5⟩,
      by decide, by decide⟩

/-- Witness for C5: an exact instance is an instance, at a concrete
type and handle. -/
theorem claim5_witness :
    (PyTypeInfo.mk "T" none "\x00" 0 7).is_exact_instance ⟨7⟩ = true
  ∧ (PyTypeInfo.mk "T" none "\x00" 0 7).is_instance ⟨fun _ _ => false⟩ ⟨7⟩ = true :=
  ⟨by decide,
   ((claim5_exact_instance_iff_identical_type_pointer.1
       ⟨fun _ _ => false⟩ (PyTypeInfo.mk "T" none "\x00" 0 7) ⟨7⟩).2) (by decide)⟩

/-- C6: is_instance(handle) is true exactly when the handle's runtime
type is this type or a descendant, and it is computed by delegating to
the runtime's type-check primitive applied to type_object(). -/
theorem claim6_is_instance_is_delegated_subtype_check :
    ∀ (rt : Runtime) (T : PyTypeInfo) (object : PyAny),
      T.is_instance rt object = PyObject_TypeCheck rt object T.type_object
      ∧ (T.is_instance rt object = true ↔
          (object.ob_type = T.type_object ∨
           rt.isDescendant object.ob_type T.type_object = true)) := by
  intro rt T object
  refine ⟨rfl, ?_⟩
  simp [PyTypeInfo.is_instance, PyObject_TypeCheck]

/-- Witness for C6: a handle whose type is a proper descendant of the
type is an instance of it. -/
theorem claim6_witness :
    (PyTypeInfo.mk "U" none "\x00" 0 7).is_instance
      ⟨fun a b => a == 5 && b == 7⟩ ⟨5⟩ = true :=
  ((claim6_is_instance_is_delegated_subtype_check
      ⟨fun a b => a == 5 && b == 7⟩ (PyTypeInfo.mk "U" none "\x00" 0 7) ⟨5⟩).2).mpr
    (Or.inr (by decide))

/-- C7: GC, WEAKREF, BASETYPE, DICT and EXTENDED are the five
pairwise-distinct single bits 2^0 .. 2^4; OR-ing any subset of them and
decomposing bit-by-bit recovers exactly that subset; in particular
GC | WEAKREF is 0b11 and its decomposition contains GC and WEAKREF and
excludes BASETYPE, DICT and EXTENDED. -/
theorem claim7_flag_composition_recovers_subset :
    (type_flags.GC = 2 ^ 0 ∧ type_flags.WEAKREF = 2 ^ 1 ∧
     type_flags.BASETYPE = 2 ^ 2 ∧ type_flags.DICT = 2 ^ 3 ∧
     type_flags.EXTENDED = 2 ^ 4)
  ∧ (∀ gc w b d e : Bool,
      hasFlag (orFlags gc w b d e) type_flags.GC = gc ∧
      hasFlag (orFlags gc w b d e) type_flags.WEAKREF = w ∧
      hasFlag (orFlags gc w b d e) type_flags.BASETYPE = b ∧
      hasFlag (orFlags gc w b d e) type_flags.DICT = d ∧
      hasFlag (orFlags gc w b d e) type_flags.EXTENDED = e)
  ∧ (type_flags.GC ||| type_flags.WEAKREF = 3 ∧
     hasFlag 3 type_flags.GC = true ∧
     hasFlag 3 type_flags.WEAKREF = true ∧
     hasFlag 3 type_flags.BASETYPE = false ∧
     hasFlag 3 type_flags.DICT = false ∧
     hasFlag 3 type_flags.EXTENDED = false) := by
  decide

/-- C8: the blanket impl gives every T : PyTypeInfo the owned-type-
record capability: its accessor returns an owned reference wrapping the
very address from PyTypeInfo::type_object(), bumps that existing
object's refcount by one, changes no other refcount, and allocates
nothing. -/
theorem claim8_blanket_owned_type_record :
    ∀ (T : PyTypeInfo) (h : PyHeap),
      (PyTypeObject.type_object T h).1.ptr = T.type_object
    ∧ (PyTypeObject.type_object T h).2.refcnt T.type_object
        = h.refcnt T.type_object + 1
    ∧ (∀ a, a ≠ T.type_object →
        (PyTypeObject.type_object T h).2.refcnt a = h.refcnt a)
    ∧ (PyTypeObject.type_object T h).2.allocCount = h.allocCount := by
  intro T h
  refine ⟨rfl, ?_, ?_, rfl⟩
  · dsimp only [PyTypeObject.type_object, Py.from_borrowed_ptr]
    rw [Function.update_same]
  · intro a ha
    dsimp only [PyTypeObject.type_object, Py.from_borrowed_ptr]
    rw [Function.update_noteq ha]

/-- Witness for C8: at a concrete type and heap, the accessor returns
the type record's own address, with its refcount bumped to 1 and an
unrelated address untouched. -/
theorem claim8_witness :
    (PyTypeObject.type_object (PyTypeInfo.mk "V" none "\x00" 0 4)
       ⟨fun _ => 0, 0⟩).1.ptr = 4
  ∧ (PyTypeObject.type_object (PyTypeInfo.mk "V" none "\x00" 0 4)
       ⟨fun _ => 0, 0⟩).2.refcnt 4 = 1
  ∧ (PyTypeObject.type_object (PyTypeInfo.mk "V" none "\x00" 0 4)
       ⟨fun _ => 0, 0⟩).2.refcnt 9 = 0 :=
  ⟨(claim8_blanket_owned_type_record (PyTypeInfo.mk "V" none "\x00" 0 4)
      ⟨fun _ => 0, 0⟩).1,
   (claim8_blanket_owned_type_record (PyTypeInfo.mk "V" none "\x00" 0 4)
      ⟨fun _ => 0, 0⟩).2.1,
   (claim8_blanket_owned_type_record (PyTypeInfo.mk "V" none "\x00" 0 4)
      ⟨fun _ => 0, 0⟩).2.2.1 9 (by decide)⟩

/-- C9: for a layout that overrides none of the trait's provided
methods (the default implementation), get_super_or returns none and the
py_init / py_drop lifecycle hooks perform no operation. -/
theorem claim9_default_layout_hooks_are_noops :
    ∀ (O B V C : Type) (s : O) (v : V) (c : C),
      (defaultLayout O B V C).get_super_or s = none
    ∧ (defaultLayout O B V C).py_init s v = s
    ∧ (defaultLayout O B V C).py_drop s c = s
    ∧ (defaultLayout O B V C).IS_NATIVE_TYPE = true :=
  fun _ _ _ _ _ _ _ => ⟨rfl, rfl, rfl, rfl⟩

/-- Witness for C9 at concrete types and values. -/
theorem claim9_witness :
    (defaultLayout Nat Nat Nat Nat).get_super_or 0 = none
  ∧ (defaultLayout Nat Nat Nat Nat).py_init 3 5 = 3 :=
  ⟨(claim9_default_layout_hooks_are_noops Nat Nat Nat Nat 0 0 0).1,
   (claim9_default_layout_hooks_are_noops Nat Nat Nat Nat 3 5 0).2.1⟩

/-- C10: entering LazyHeapType::get_or_init with the flag already true
but the payload slot still empty makes the unconditional unwrap panic
instead of returning an address — and such a state is reachable (the
winner has done its CAS but not yet its store); whenever the payload
was published before the read, the read returns exactly the published
address, so the panic branch is unreachable precisely under that
publication precondition. -/
theorem claim10_unwrap_panics_on_unpublished_payload :
    (∀ (n : Nat) (c : Fin n → Addr) (s : LazyHeapModel.Run n) (i : Fin n),
      s.cell.initialized = true → s.cell.value = none → s.pc i = .beforeCas →
      (LazyHeapModel.stepThread c (LazyHeapModel.stepThread c s i) i).result i
        = some .panicked)
  ∧ (∀ (n : Nat) (c : Fin n → Addr) (s : LazyHeapModel.Run n) (i : Fin n)
       (a : Addr),
      s.cell.value = some a → s.pc i = .readRet →
      (LazyHeapModel.stepThread c s i).result i = some (.returned a))
  ∧ ((LazyHeapModel.run (fun _ => 100) ([0] : List (Fin 2))
        (LazyHeapModel.initRun 2)).cell.initialized = true
     ∧ (LazyHeapModel.run (fun _ => 100) ([0] : List (Fin 2))
          (LazyHeapModel.initRun 2)).cell.value = none
     ∧ (LazyHeapModel.run (fun _ => 100) ([0] : List (Fin 2))
          (LazyHeapModel.initRun 2)).pc 1 = .beforeCas) := by
  refine ⟨?_, ?_, by decide⟩
  · intro n c s i hini hval hpc
    unfold LazyHeapModel.stepThread
    rw [hpc]
    simp [LazyHeapModel.stepAt, hini, hval, Function.update_same]
  · intro n c s i a hval hpc
    unfold LazyHeapModel.stepThread
    rw [hpc]
    simp [LazyHeapModel.stepAt, hval, Function.update_same]

/-- Witness for C10: after the winner's CAS alone, the loser's two
steps end in the panic; after the winner's store, the loser's read
returns the published address. -/
theorem claim10_witness :
    (LazyHeapModel.stepThread (fun _ => 100)
       (LazyHeapModel.stepThread (fun _ => 100)
          (LazyHeapModel.run (fun _ => 100) ([0] : List (Fin 2))
             (LazyHeapModel.initRun 2)) 1) 1).result 1 = some .panicked
  ∧ (LazyHeapModel.stepThread (fun _ => 100)
       (LazyHeapModel.run (fun _ => 100) ([0, 0, 1] : List (Fin 2))
          (LazyHeapModel.initRun 2)) 1).result 1 = some (.returned 100) :=
  ⟨claim10_unwrap_panics_on_unpublished_payload.1 2 (fun _ => 100) _ 1
     (by decide) (by decide) (by decide),
   claim10_unwrap_panics_on_unpublished_payload.2.1 2 (fun _ => 100) _ 1 100
     (by decide) (by decide)⟩
